import Mathlib

/-!
# Verification of the 3cx-support telephony backend

A shallow embedding of the core data model and operations of the
tierklinik-dobersberg/3cx-support repository, together with proofs of the
behavioural properties stated in its specification.

Conventions of the embedding:

* `time.Time` values are modelled as `Int` (a point on a linear time line);
  the Go zero time corresponds to `0` where the code checks `IsZero`.
* MongoDB collections are modelled as Lean lists of documents; a `FindOne`
  with a sort becomes a fold selecting the extremal matching element.
* Go `string` zero values (`""`) keep their role: a field whose bson tag is
  `omitempty` and whose value is `""` is treated as absent by the `$exists`
  filters, exactly as the driver serialises it.
* External services (identity, roster, phone-number library) are passed in
  as explicit function parameters ("environments").
-/

set_option autoImplicit false

namespace PbxSupport

/-! ## Overwrite store (internal/database/voicemails.go)

`structs.Overwrite` is referenced throughout the sources (CreateOverwrite,
GetActiveOverwrite, DeleteOverwrite, ResolveOverwriteTarget ...) but its
declaration file is not part of the source tree.

Modelled from the spec: the `Overwrite` document per §3 — "Identity: opaque
id. Attributes: from-time, to-time (exclusive), target as tagged variant
{user-id | phone+display-name}, inbound-number (optional; empty means 'all
inbound numbers'), creator id, created-at, deleted flag."  The optional
inbound number is an `Option String`: `none` is a document without the
`inboundNumber` field (the sparse index and the `$exists: false` filter in
`getInboundNumbersFilter` only make sense for an omitted field). -/
structure Overwrite where
  id : Nat
  fromTime : Int
  toTime : Int
  userID : String
  phoneNumber : String
  displayName : String
  createdBy : String
  createdAt : Int
  deleted : Bool
  inboundNumber : Option String
  deriving Repr, DecidableEq

/-- Model of `getInboundNumbersFilter` (voicemails.go:910-928): the disjunction is
`inboundNumber $exists false` alone when the requested set is empty, and
`$exists false OR inboundNumber $in set` otherwise.  Stated per document. -/
def matchesInboundNumbersFilter (inboundNumbers : List String) (o : Overwrite) : Bool :=
  match o.inboundNumber with
  | none => true
  | some n => inboundNumbers.contains n

/-- The complete `FindOne` filter of `GetActiveOverwrite` (voicemails.go:888-897):
`from $lte date AND to $gt date AND (inbound-number disjunction) AND deleted $ne true`. -/
def isActiveOverwriteAt (date : Int) (inboundNumbers : List String) (o : Overwrite) : Bool :=
  decide (o.fromTime ≤ date) && decide (date < o.toTime) &&
    matchesInboundNumbersFilter inboundNumbers o && !o.deleted

/-- One step of the maximum-`createdAt` selection. -/
def pickStep (acc : Option Overwrite) (o : Overwrite) : Option Overwrite :=
  match acc with
  | none => some o
  | some b => if o.createdAt > b.createdAt then some o else some b

/-- Fold selecting the element with the greatest `createdAt`; the first such
element wins on ties.  This models `FindOne` with sort `createdAt: -1`. -/
def pickLatestCreated (l : List Overwrite) : Option Overwrite :=
  l.foldl pickStep none

/-- Model of `database.GetActiveOverwrite` (voicemails.go:880-908): `FindOne` over the
overwrite collection with the active-at filter, sorted by `createdAt`
descending.  Returns `none` when no document matches (`mongo.ErrNoDocuments`). -/
def GetActiveOverwrite (overwrites : List Overwrite) (date : Int)
    (inboundNumbers : List String) : Option Overwrite :=
  pickLatestCreated (overwrites.filter (isActiveOverwriteAt date inboundNumbers))

/-- Model of `database.GetOverwrite` (voicemails.go:861-878): `FindOne` by `_id` only;
soft-deleted documents are returned as well. -/
def dbGetOverwrite (overwrites : List Overwrite) (id : Nat) : Option Overwrite :=
  overwrites.find? (fun o => o.id = id)

/-! ## On-call resolver (internal/config/providers.go) -/

/-- A `structpb.Value` stored under an extra-attribute key of an identity
profile; `GetUserTransferTarget` accepts string and number kinds and skips
every other kind. -/
inductive ExtraValue where
  | str (s : String)
  | num (n : Int)
  | other
  deriving Repr, DecidableEq

/-- The slice of an `idmv1.Profile` the resolver reads: the user's extra
attributes and the primary phone number (`none` models a nil pointer). -/
structure Profile where
  userId : String
  extra : List (String × ExtraValue)
  primaryPhone : Option String
  deriving Repr, DecidableEq

/-- Model of `Providers.GetUserTransferTarget` (providers.go:272-297): walk the
configured phone-extension keys over the profile's extra attributes, return
the first string or number hit; fall back to the primary phone number; else
return the empty string. -/
def GetUserTransferTarget (phoneExtensionKeys : List String) (p : Profile) : String :=
  go phoneExtensionKeys
where
  go : List String → String
    | [] =>
      match p.primaryPhone with
      | some n => n
      | none => ""
    | key :: rest =>
      match (p.extra.find? (fun kv => kv.1 = key)) with
      | none => go rest
      | some (_, ExtraValue.str s) => s
      | some (_, ExtraValue.num n) => toString n
      | some (_, ExtraValue.other) => go rest

/-- Model of `strings.HasPrefix(s, p)`, stated on character lists so that it
evaluates by kernel reduction. -/
def strStarts (s p : String) : Bool :=
  p.toList.isPrefixOf s.toList

/-- Model of `strings.ReplaceAll(target, " ", "")` then `"-"` then `"/"`
(providers.go:234-236): removing all occurrences of the three characters. -/
def sanitizeTarget (s : String) : String :=
  String.mk (s.toList.filter (fun c => c ≠ ' ' && c ≠ '-' && c ≠ '/'))

/-- Numeric value of a digit string, most significant digit first. -/
def digitsVal (cs : List Char) : Nat :=
  cs.foldl (fun a c => a * 10 + (c.toNat - 48)) 0

/-- Model of `strconv.ParseInt(s, 10, 0)` succeeds (providers.go:247): an optional
sign followed by at least one decimal digit, within the 64-bit int range. -/
def goParseIntOk (s : String) : Bool :=
  let neg := strStarts s "-"
  let t := if strStarts s "+" || strStarts s "-" then s.drop 1 else s
  let cs := t.toList
  !cs.isEmpty && cs.all Char.isDigit &&
    (if neg then digitsVal cs ≤ 2 ^ 63 else digitsVal cs ≤ 2 ^ 63 - 1)

/-- The error values `ResolveOnCallTarget` and `ResolveOverwriteTarget` can
produce.  `fmt.Errorf` wrapping is flattened into constructors. -/
inductive OnCallError where
  /-- "overwrite: ..." — failure to resolve the active overwrite's target. -/
  | overwriteTarget (msg : String)
  /-- "roster: failed to get working staff from RosterService: ..." -/
  | roster (msg : String)
  /-- Model of `connect.CodeNotFound`: "no roster defined for ..." -/
  | notFoundNoRoster
  /-- "roster: failed to determine on-call users" -/
  | noOnCallUsers
  /-- Model of `connect.CodeInvalidArgument` from parsing the request date. -/
  | invalidDate
  deriving Repr, DecidableEq

/-- One roster shift, as read by the resolver: the assigned user ids and the
shift end (`shift.To`). -/
structure Shift where
  assignedUserIds : List String
  toTime : Int
  deriving Repr, DecidableEq

/-- The response of `RosterService.GetWorkingStaff2` as consumed by the
resolver. -/
structure WorkingStaff where
  userIds : List String
  currentShifts : List Shift
  deriving Repr, DecidableEq

/-- The inbound-number document as the resolver reads it.

Modelled from the spec: the revision of `structs.InboundNumber` carrying a
`ResultLimit` field ("result-limit (caps the returned on-call list)", §3) is
not in the source tree; the copy in src lacks that field although
providers.go:176 reads it. -/
structure InboundNumberModel where
  rosterTypeName : String
  rosterShiftTags : List String
  resultLimit : Int
  deriving Repr, DecidableEq

/-- Everything external that `ResolveOnCallTarget` consults: the overwrite
collection, configuration values, the identity service (`profiles`, where
`none` models a fetch error), the roster service and the inbound-number
table (`none` models a lookup error, which the code tolerates). -/
structure ResolveEnv where
  overwrites : List Overwrite
  defaultOnCallInboundNumber : String
  rosterTypeName : String
  phoneExtensionKeys : List String
  profiles : String → Option Profile
  getWorkingStaff : Int → String → List String → Except String WorkingStaff
  getInboundNumber : String → Option InboundNumberModel

/-- Model of `Providers.ResolveOverwriteTarget` (providers.go:220-252): start from the
overwrite's phone number; when a user id is set, fetch the profile and use
its transfer target instead; sanitize; reject empty or non-numeric targets. -/
def ResolveOverwriteTarget (env : ResolveEnv) (ow : Overwrite) :
    Except OnCallError (String × Option Profile) := do
  let (target0, profile) ←
    if ow.userID ≠ "" then
      match env.profiles ow.userID with
      | none => Except.error (OnCallError.overwriteTarget "failed to fetch user")
      | some p => Except.ok (GetUserTransferTarget env.phoneExtensionKeys p, some p)
    else
      Except.ok (ow.phoneNumber, (none : Option Profile))
  let target := sanitizeTarget target0
  if target = "" then
    Except.error (OnCallError.overwriteTarget "failed to get transfer target for overwrite")
  else
    let verify := if strStarts target "+" then target.drop 1 else target
    if goParseIntOk verify then
      Except.ok (target, profile)
    else
      Except.error (OnCallError.overwriteTarget "invalid transfer target: expected a number")

/-- One `on_call` entry of the `GetOnCallResponse`. -/
structure OnCallEntry where
  profile : Option Profile
  transferTarget : String
  untilTime : Int
  deriving Repr, DecidableEq

/-- Model of `pbx3cxv1.GetOnCallResponse` as produced by the resolver and the façade. -/
structure GetOnCallResponse where
  isOverwrite : Bool
  onCall : List OnCallEntry
  primaryTransferTarget : String
  deriving Repr, DecidableEq

/-- The soonest shift end among the current shifts assigned to `userId`
(providers.go:187-196); the Go zero time (here `0`) is the initial value and
is replaced by the first assigned shift. -/
def shiftUntil (userId : String) (shifts : List Shift) : Int :=
  shifts.foldl
    (fun u s =>
      if s.assignedUserIds.contains userId then
        if s.toTime < u || u = 0 then s.toTime else u
      else u)
    0

/-- The per-user loop of `ResolveOnCallTarget` (providers.go:175-208):
honour the result limit, skip users whose profile fetch fails and users
without a transfer target, and record `{profile, target, until}` otherwise. -/
def buildOnCall (env : ResolveEnv) (resultLimit : Int) (shifts : List Shift) :
    List String → List OnCallEntry → List OnCallEntry
  | [], acc => acc
  | userId :: rest, acc =>
    if resultLimit > 0 && acc.length ≥ resultLimit.toNat then acc
    else
      match env.profiles userId with
      | none => buildOnCall env resultLimit shifts rest acc
      | some p =>
        let target := GetUserTransferTarget env.phoneExtensionKeys p
        if target ≠ "" then
          buildOnCall env resultLimit shifts rest
            (acc ++ [⟨some p, target, shiftUntil userId shifts⟩])
        else
          buildOnCall env resultLimit shifts rest acc

/-- Model of `Providers.ResolveOnCallTarget` (providers.go:103-218). -/
def ResolveOnCallTarget (env : ResolveEnv) (dateTime : Int) (ignoreOverwrites : Bool)
    (inboundNumber0 : String) : Except OnCallError GetOnCallResponse :=
  let inboundNumber :=
    if inboundNumber0 = "" && env.defaultOnCallInboundNumber ≠ "" then
      env.defaultOnCallInboundNumber
    else inboundNumber0
  let numbers : List String := if inboundNumber ≠ "" then [inboundNumber] else []
  match GetActiveOverwrite env.overwrites dateTime numbers, ignoreOverwrites with
  | some ow, false =>
    match ResolveOverwriteTarget env ow with
    | Except.error e => Except.error e
    | Except.ok (target, profile) =>
      Except.ok
        { isOverwrite := true
          onCall := [⟨profile, target, ow.toTime⟩]
          primaryTransferTarget := target }
  | ov, _ =>
    -- reachable with `ov = none`, or with an active overwrite while
    -- `ignoreOverwrites` is set; both fall through to the roster path
    let _ := ov
    let ibModel :=
      match (if inboundNumber ≠ "" then env.getInboundNumber inboundNumber else none) with
      | some m => m
      | none => ⟨"", [], 0⟩
    let rosterTypeName :=
      if ibModel.rosterTypeName = "" then env.rosterTypeName else ibModel.rosterTypeName
    match env.getWorkingStaff dateTime rosterTypeName ibModel.rosterShiftTags with
    | Except.error msg => Except.error (OnCallError.roster msg)
    | Except.ok staff =>
      if staff.userIds.isEmpty then Except.error OnCallError.notFoundNoRoster
      else
        match buildOnCall env ibModel.resultLimit staff.currentShifts staff.userIds [] with
        | [] => Except.error OnCallError.noOnCallUsers
        | e :: rest =>
          Except.ok
            { isOverwrite := false
              onCall := e :: rest
              primaryTransferTarget := e.transferTarget }

/-! ## RPC façade (services package, src/unnamed/part_006) -/

/-- Model of `CallService.handleOnCallError` (part_006:635-654): when a failover
transfer target is configured the error is swallowed and a bare response
carrying only the failover target is returned; otherwise the error
propagates.  (The admin error notification is a side effect without
influence on the response.) -/
def handleOnCallError (failoverTransferTarget : String) (e : OnCallError) :
    Except OnCallError GetOnCallResponse :=
  if failoverTransferTarget ≠ "" then
    Except.ok
      { isOverwrite := false
        onCall := []
        primaryTransferTarget := failoverTransferTarget }
  else
    Except.error e

/-- Model of `CallService.GetOnCall` (part_006:298-358), reduced to its data flow:
resolve, and route any failure through `handleOnCallError`. -/
def rpcGetOnCall (env : ResolveEnv) (failoverTransferTarget : String) (dateTime : Int)
    (ignoreOverwrites : Bool) (inboundNumber : String) :
    Except OnCallError GetOnCallResponse :=
  match ResolveOnCallTarget env dateTime ignoreOverwrites inboundNumber with
  | Except.ok r => Except.ok r
  | Except.error e => handleOnCallError failoverTransferTarget e

/-- Error codes surfaced by the overwrite RPCs. -/
inductive RpcError where
  | notFound
  | invalidArgument
  deriving Repr, DecidableEq

/-- Model of `CallService.GetOverwrite` with the `overwrite_id` selector
(part_006:509-519 and 541-547): fetch by id (the store returns soft-deleted
documents too), then treat a deleted result as `mongo.ErrNoDocuments`, which
the error mapping turns into `connect.CodeNotFound`. -/
def rpcGetOverwriteById (overwrites : List Overwrite) (id : Nat) :
    Except RpcError (List Overwrite) :=
  match dbGetOverwrite overwrites id with
  | none => Except.error RpcError.notFound
  | some o =>
    if o.deleted then Except.error RpcError.notFound
    else Except.ok [o]

/-! ## Call-log store (internal/database/calllog.go) -/

/-- Model of `structs.CallLog`.  The identity, caller, inbound number, timestamp,
duration, call type, date string, agent, customer linkage, error flag,
transfer fields and call id follow the declaration in the sources
(src/unnamed/part_002).  Strings use `""` for an absent (`omitempty`)
field, and `durationSeconds = 0` is an absent `durationSeconds` field,
exactly as the driver serialises the Go zero values.

Modelled from the spec: the revision of `structs.CallLog` additionally
carrying direction, participant from-type and to-type, and chain (§3
"direction (Inbound/Outbound), participant from-type and to-type ...,
chain") is not in the source tree, although calllog.go:263-268 and
part_017:84-106 read and write those fields. -/
structure CallLog where
  id : Nat
  caller : String
  inboundNumber : String
  date : Int
  durationSeconds : Nat
  callType : String
  dateStr : String
  agent : String
  agentUserId : String
  customerID : String
  customerSource : String
  error : Bool
  transferTarget : String
  transferFrom : String
  callID : String
  direction : String
  fromType : String
  toType : String
  chain : String
  deriving Repr, DecidableEq

/-- Model of `callRecordDatabase.perpareRecord` (calllog.go:346-375): the literal
`"Anonymous"` becomes the stored literal `"anonymous"`; any other caller is
parsed with the configured country and re-emitted in INTERNATIONAL format
(a parse failure aborts the write); the date string is derived from the
record's timestamp.  `parsePhone` models `phonenumbers.Parse` composed with
`phonenumbers.Format(·, INTERNATIONAL)` for the configured country, and
`fmtDate` models `Time.Format("2006-01-02")` in the local zone. -/
def perpareRecord (parsePhone : String → Option String) (fmtDate : Int → String)
    (record : CallLog) : Option CallLog :=
  if record.caller = "Anonymous" then
    some { record with caller := "anonymous", dateStr := fmtDate record.date }
  else
    match parsePhone record.caller with
    | none => none
    | some formatted =>
      some { record with caller := formatted, dateStr := fmtDate record.date }

/-- The `Find` filter of `RecordCustomerCall` (calllog.go:209-215): same
date string, same (already normalized) caller, no duration yet. -/
def unidentifiedCandidate (r c : CallLog) : Bool :=
  c.dateStr = r.dateStr && c.caller = r.caller && c.durationSeconds = 0

/-- Insertion into a list kept in descending `date` order. -/
def insertDescByDate (c : CallLog) : List CallLog → List CallLog
  | [] => [c]
  | x :: xs => if c.date ≤ x.date then x :: insertDescByDate c xs else c :: x :: xs

/-- Sort a candidate list by `date` descending, modelling the cursor sort
`{date: -1}` of calllog.go:206-208. -/
def sortDescByDate (l : List CallLog) : List CallLog :=
  l.foldr insertDescByDate []

/-- The acceptance window of calllog.go:223-241: the candidate's timestamp
lies strictly between `record.Date - 2min` and `record.Date + 2min`
(`lower.Before(existing.Date) && upper.After(existing.Date)`).  Times are
in seconds, so two minutes is `120`. -/
def withinTwoMinutes (r c : CallLog) : Bool :=
  decide (r.date - 120 < c.date) && decide (c.date < r.date + 120)

/-- The candidate scan of `RecordCustomerCall`: walk the candidates in
descending timestamp order and take the first one inside the ±2-minute
window. -/
def findMatchingUnidentified (store : List CallLog) (r : CallLog) : Option CallLog :=
  (sortDescByDate (store.filter (unidentifiedCandidate r))).find? (withinTwoMinutes r)

/-- The carry-over of calllog.go:247-268: the new record takes over the
matched record's id, transfer target, error flag, transfer source and call
id unconditionally, and its inbound number, customer id, from-type and
to-type only when they are empty on the new record. -/
def mergeCarryOver (r ex : CallLog) : CallLog :=
  { r with
    id := ex.id
    transferTarget := ex.transferTarget
    error := ex.error
    transferFrom := ex.transferFrom
    callID := ex.callID
    inboundNumber := if r.inboundNumber = "" then ex.inboundNumber else r.inboundNumber
    customerID := if r.customerID = "" then ex.customerID else r.customerID
    fromType := if r.fromType = "" then ex.fromType else r.fromType
    toType := if r.toType = "" then ex.toType else r.toType }

/-- The write phase of `RecordCustomerCall` on an already prepared record:
replace the matched document in place (`FindOneAndReplace` on its `_id`) or
insert a new document.  Returns the new collection and the written record. -/
def recordCustomerCallPrepared (store : List CallLog) (r : CallLog) :
    List CallLog × CallLog :=
  match findMatchingUnidentified store r with
  | some ex =>
    let w := mergeCarryOver r ex
    (store.map (fun c => if c.id = ex.id then w else c), w)
  | none => (store ++ [r], r)

/-- Model of `callRecordDatabase.RecordCustomerCall` (calllog.go:195-290): prepare
the record (normalising caller and date string), then match-and-replace or
insert.  `none` is a failed write (caller did not parse). -/
def RecordCustomerCall (parsePhone : String → Option String) (fmtDate : Int → String)
    (store : List CallLog) (record : CallLog) : Option (List CallLog × CallLog) :=
  (perpareRecord parsePhone fmtDate record).map (recordCustomerCallPrepared store)

/-- Model of `callRecordDatabase.CreateUnidentified` (calllog.go:124-143): prepare
the record, then insert it as-is. -/
def CreateUnidentified (parsePhone : String → Option String) (fmtDate : Int → String)
    (store : List CallLog) (record : CallLog) : Option (List CallLog × CallLog) :=
  (perpareRecord parsePhone fmtDate record).map (fun r => (store ++ [r], r))

/-! ## CDR pipeline (src/unnamed/part_006 `cdr` package, src/unnamed/part_017) -/

/-- Model of `structs.TypeExtension` (src/unnamed/part_005). -/
def TypeExtension : String := "extension"

/-- Model of `structs.TypeQueue` (src/unnamed/part_005). -/
def TypeQueue : String := "queue"

/-- Model of `cdr.Record` (part_006:77-103), restricted to the fields the classifier
and the synthesizer read.  `timeAnswered = 0` models the Go zero time
(an empty `time-answered` CSV column), and `duration` is whole seconds. -/
structure CdrRecord where
  callID : String
  timeReceived : Int
  timeAnswered : Int
  chain : String
  duration : Nat
  dialNumber : String
  finalType : String
  finalNumber : String
  fromType : String
  fromNumber : String
  toType : String
  toNumber : String
  deriving Repr, DecidableEq

/-- Model of `Record.Inbound` (part_006:209-212): an inbound call is one whose
from-type is not an extension. -/
def CdrRecord.Inbound (r : CdrRecord) : Bool :=
  r.fromType ≠ TypeExtension

/-- Model of `Record.Outbound` (part_006:214-217). -/
def CdrRecord.Outbound (r : CdrRecord) : Bool :=
  !r.Inbound

/-- Model of `Record.Answered` (part_006:219-231): for inbound records the call is
answered iff the final type is not a queue; for outbound records iff
`time-answered` is non-zero. -/
def CdrRecord.Answered (r : CdrRecord) : Bool :=
  if r.Inbound then r.finalType ≠ TypeQueue else r.timeAnswered ≠ 0

/-- Model of `strings.TrimPrefix(s, "Ext.")` (part_017:92 and 102). -/
def trimExtDot (s : String) : String :=
  if strStarts s "Ext." then s.drop 4 else s

/-- Model of `ProcessorImpl.callLogFromRecord` (part_017:77-114).  `fmtDate` models
`Time.Format("2006-01-02")` and `resolveAgent` models
`userResolver.GetUserIdForAgent`. -/
def callLogFromRecord (fmtDate : Int → String) (resolveAgent : String → String)
    (r : CdrRecord) : CallLog :=
  let base : CallLog :=
    { id := 0
      caller := ""
      inboundNumber := ""
      date := r.timeReceived
      durationSeconds := r.duration
      callType := ""
      dateStr := fmtDate r.timeReceived
      agent := ""
      agentUserId := ""
      customerID := ""
      customerSource := ""
      error := false
      transferTarget := ""
      transferFrom := ""
      callID := r.callID
      direction := ""
      fromType := r.fromType
      toType := r.finalType
      chain := r.chain }
  let cr :=
    if r.Inbound then
      { base with
        caller := r.fromNumber
        direction := "Inbound"
        inboundNumber := r.dialNumber
        agent := trimExtDot r.finalNumber
        callType := if r.Answered then "Inbound" else "Missed" }
    else
      { base with
        caller := r.dialNumber
        direction := "Outbound"
        agent := trimExtDot r.fromNumber
        callType := if r.Answered then "Outbound" else "NotAnswered" }
  { cr with agentUserId := resolveAgent cr.agent }

/-! ## Mailbox store: MarkVoiceMails (internal/database/voicemails.go:463-520) -/

/-- The slice of `structs.VoiceMail` (internal/structs/voicemail.go) that
`MarkVoiceMails` touches: identity, owning mailbox and the optional
`seenTime` (`none` is an absent — `omitempty` — field, i.e. unseen). -/
structure VoiceMailRec where
  id : Nat
  mailbox : Nat
  seenTime : Option Int
  deriving Repr, DecidableEq

/-- The `UpdateMany` filter of `MarkVoiceMails`: optional mailbox scope, an
`_id $in ids` clause only when ids were given, and `seenTime $exists !seen`. -/
def markFilter (seen : Bool) (mailbox : Option Nat) (ids : List Nat)
    (v : VoiceMailRec) : Bool :=
  (match mailbox with
    | none => true
    | some m => v.mailbox = m) &&
  (ids.isEmpty || ids.contains v.id) &&
  (v.seenTime.isSome = !seen)

/-- Model of `mailboxDatabase.MarkVoiceMails` (voicemails.go:463-520): `UpdateMany`
applying `$set {seenTime: now}` when marking seen and `$unset {seenTime}`
when marking unseen, over the documents matching `markFilter`. -/
def MarkVoiceMails (seen : Bool) (mailbox : Option Nat) (ids : List Nat) (now : Int)
    (records : List VoiceMailRec) : List VoiceMailRec :=
  records.map fun v =>
    if markFilter seen mailbox ids v then
      if seen then { v with seenTime := some now } else { v with seenTime := none }
    else v

/-! ## Notification scheduler (internal/worker/notification_worker.go) -/

/-- The success predicate of notification_worker.go:102-120: every request
returned without error and every delivery reported `ERROR_KIND_UNSPECIFIED`. -/
def slotSuccess (results : List (Except Unit (List Bool))) : Bool :=
  results.all fun r =>
    match r with
    | Except.error _ => false
    | Except.ok ds => ds.all id

/-- The observable effect of processing one time-of-day slot. -/
structure SlotEffect where
  /-- Whether the prepared notification requests were dispatched. -/
  sent : Bool
  /-- Whether `MarkAsNotificationSent` was called for the candidates. -/
  journaled : Bool
  /-- The value of `lastSentMap[key]` after the slot. -/
  newLastSent : Option Int
  deriving Repr, DecidableEq

/-- The body of the per-slot loop (notification_worker.go:88-134) for a slot
whose `sendTimeToday` has been computed: skip slots before the worker start
or after `now`; skip slots whose `lastSentMap` entry is not older than
`sendTimeToday`; otherwise dispatch every request, journal exactly when all
succeeded, and update `lastSentMap[key]` to `sendTimeToday`. -/
def processSlot (startTime now sendTimeToday : Int) (lastSent : Option Int)
    (results : List (Except Unit (List Bool))) : SlotEffect :=
  if sendTimeToday < startTime || sendTimeToday > now then
    { sent := false, journaled := false, newLastSent := lastSent }
  else if (match lastSent with
      | some ls => decide ¬(ls < sendTimeToday)
      | none => false) then
    { sent := false, journaled := false, newLastSent := lastSent }
  else
    { sent := true, journaled := slotSuccess results, newLastSent := some sendTimeToday }

/-! ## Reconciliation worker (internal/worker/find_customers.go) -/

/-- Which `select` branch fires in the worker's
`select { case <-ticker.C: case <-ctx.Done(): return }`. -/
inductive SelectChoice where
  | ticker
  | ctxDone
  deriving Repr, DecidableEq

/-- Control state of the `StartFindCustomerWorker` goroutine
(find_customers.go:16-62).  `pass n` is about to run a reconciliation pass
having completed `n`; `selectWait n` sits in the `select` after `n` passes;
`exited n` has returned after `n` passes. -/
inductive WorkerPhase where
  | pass (n : Nat)
  | selectWait (n : Nat)
  | exited (n : Nat)
  deriving Repr, DecidableEq

/-- Number of completed reconciliation passes in a control state. -/
def WorkerPhase.passes : WorkerPhase → Nat
  | .pass n => n
  | .selectWait n => n
  | .exited n => n

/-- Whether the goroutine has returned. -/
def WorkerPhase.isExited : WorkerPhase → Bool
  | .exited _ => true
  | _ => false

/-- One control step of the goroutine of find_customers.go:16-62: the pass
body runs once, then the single `select` is evaluated, and — whichever
branch fires — the function body ends, because no loop encloses the pass. -/
def findCustomerStep : WorkerPhase → SelectChoice → WorkerPhase
  | .pass n, _ => .selectWait (n + 1)
  | .selectWait n, _ => .exited n
  | .exited n, _ => .exited n

/-- Run the worker under a schedule of `select` outcomes. -/
def findCustomerExec (p : WorkerPhase) : List SelectChoice → WorkerPhase
  | [] => p
  | c :: cs => findCustomerExec (findCustomerStep p c) cs

/-- The revision of the worker in src/unnamed/part_019:16-84: the pass and
the `select` sit inside `for { ... }`, so a `ticker.C` outcome starts the
next pass and only `ctx.Done()` returns.  The per-pass context is cancelled
(`defer cancel()`) before the `select` runs, so its `Done` channel is
always ready there. -/
def findCustomerStep19 : WorkerPhase → SelectChoice → WorkerPhase
  | .pass n, _ => .selectWait (n + 1)
  | .selectWait n, .ticker => .pass n
  | .selectWait n, .ctxDone => .exited n
  | .exited n, _ => .exited n

/-- Run the part_019 revision under a schedule of `select` outcomes. -/
def findCustomerExec19 (p : WorkerPhase) : List SelectChoice → WorkerPhase
  | [] => p
  | c :: cs => findCustomerExec19 (findCustomerStep19 p c) cs

/-! ## Decidability helper and concrete scenario environments -/

instance instExceptDecEq {ε α : Type} [DecidableEq ε] [DecidableEq α] :
    DecidableEq (Except ε α) := fun a b =>
  match a, b with
  | Except.error x, Except.error y =>
    if h : x = y then isTrue (by rw [h])
    else isFalse (fun hc => by cases hc; exact h rfl)
  | Except.error _, Except.ok _ => isFalse (fun hc => by cases hc)
  | Except.ok _, Except.error _ => isFalse (fun hc => by cases hc)
  | Except.ok x, Except.ok y =>
    if h : x = y then isTrue (by rw [h])
    else isFalse (fun hc => by cases hc; exact h rfl)

/-- Scenario of §8.1: overwrite O1, 10:00-12:00 (minutes 600-720), targeting
user `A`, created at `T1 = 1`. -/
def scenarioO1 : Overwrite :=
  { id := 1, fromTime := 600, toTime := 720, userID := "A", phoneNumber := ""
    displayName := "", createdBy := "A", createdAt := 1, deleted := false
    inboundNumber := none }

/-- Scenario of §8.1: overwrite O2, 11:00-11:30 (minutes 660-690), targeting
the phone number `+43100`, created at `T2 = 2 > T1`. -/
def scenarioO2 : Overwrite :=
  { id := 2, fromTime := 660, toTime := 690, userID := "", phoneNumber := "+43100"
    displayName := "", createdBy := "B", createdAt := 2, deleted := false
    inboundNumber := none }

/-- Environment for the §8.1 scenario: both overwrites stored, no default
inbound number, external services unused on the overwrite path. -/
def scenarioEnv : ResolveEnv :=
  { overwrites := [scenarioO1, scenarioO2]
    defaultOnCallInboundNumber := ""
    rosterTypeName := "doctor-on-duty"
    phoneExtensionKeys := []
    profiles := fun _ => none
    getWorkingStaff := fun _ _ _ => Except.error "unused"
    getInboundNumber := fun _ => none }

/-- Environment for the §8.3 failover scenario: no overwrites stored and a
failing roster service. -/
def failoverEnv : ResolveEnv :=
  { overwrites := []
    defaultOnCallInboundNumber := ""
    rosterTypeName := "doctor-on-duty"
    phoneExtensionKeys := []
    profiles := fun _ => none
    getWorkingStaff := fun _ _ _ => Except.error "roster unavailable"
    getInboundNumber := fun _ => none }

/-- A concrete CDR row for §8.4: `from-type ≠ extension`,
`final-type = queue`, empty `time-answered`. -/
def missedCdr : CdrRecord :=
  { callID := "cid-1", timeReceived := 100, timeAnswered := 0, chain := ""
    duration := 0, dialNumber := "+4322", finalType := "queue"
    finalNumber := "Ext.12", fromType := "external_line", fromNumber := "+43664123"
    toType := "queue", toNumber := "12" }

/-- A concrete phone-number normalizer standing in for
`phonenumbers.Parse` + `Format(INTERNATIONAL)` with country AT. -/
def examplePhoneParse : String → Option String := fun s =>
  if s = "0664 123" || s = "+43 664 123" then some "+43 664 123" else none

/-- A concrete date formatter standing in for `Format("2006-01-02")`. -/
def exampleFmtDate : Int → String := fun _ => "2026-10-11"

/-- Scenario of §8.2: the prior unidentified record (12:00 local, already
normalized caller, no duration, transfer target `+43999`). -/
def priorUnidentified : CallLog :=
  { id := 1, caller := "+43 664 123", inboundNumber := "+4322", date := 720
    durationSeconds := 0, callType := "", dateStr := "2026-10-11", agent := ""
    agentUserId := "", customerID := "", customerSource := "", error := false
    transferTarget := "+43999", transferFrom := "", callID := "call-1"
    direction := "", fromType := "", toType := "", chain := "" }

/-- Scenario of §8.2: the customer-tagged record one minute later, already
prepared (normalized caller and date string). -/
def taggedRecord : CallLog :=
  { id := 2, caller := "+43 664 123", inboundNumber := "", date := 780
    durationSeconds := 30, callType := "Inbound", dateStr := "2026-10-11"
    agent := "A", agentUserId := "", customerID := "CX", customerSource := "crm"
    error := false, transferTarget := "", transferFrom := "", callID := ""
    direction := "Inbound", fromType := "", toType := "", chain := "" }

/-- The §8.2 customer-tagged record before preparation: raw caller as the
PBX delivered it. -/
def rawTaggedRecord : CallLog :=
  { taggedRecord with caller := "0664 123", dateStr := "" }

/-! # Theorems -/

/-! ## Lemmas about the maximum-createdAt selection -/

theorem foldl_pickStep_mem :
    ∀ (l : List Overwrite) (acc : Option Overwrite) (o : Overwrite),
      l.foldl pickStep acc = some o → acc = some o ∨ o ∈ l := by
  intro l
  induction l with
  | nil => intro acc o h; exact Or.inl h
  | cons x xs ih =>
    intro acc o h
    simp only [List.foldl_cons] at h
    rcases ih (pickStep acc x) o h with h' | h'
    · cases acc with
      | none =>
        simp only [pickStep] at h'
        exact Or.inr (List.mem_cons.mpr (Or.inl (Option.some.injEq .. ▸ h'.symm)))
      | some b =>
        simp only [pickStep] at h'
        by_cases hc : x.createdAt > b.createdAt
        · simp only [if_pos hc, Option.some.injEq] at h'
          exact Or.inr (List.mem_cons.mpr (Or.inl h'.symm))
        · simp only [if_neg hc] at h'
          exact Or.inl h'
    · exact Or.inr (List.mem_cons_of_mem _ h')

theorem foldl_pickStep_max :
    ∀ (l : List Overwrite) (acc : Option Overwrite) (o : Overwrite),
      l.foldl pickStep acc = some o →
      (∀ b, acc = some b → b.createdAt ≤ o.createdAt) ∧
        (∀ o' ∈ l, o'.createdAt ≤ o.createdAt) := by
  intro l
  induction l with
  | nil =>
    intro acc o h
    refine ⟨fun b hb => ?_, by simp⟩
    simp only [List.foldl_nil] at h
    rw [hb, Option.some.injEq] at h
    rw [h]
  | cons x xs ih =>
    intro acc o h
    simp only [List.foldl_cons] at h
    obtain ⟨hacc, hall⟩ := ih (pickStep acc x) o h
    have hstep : ∀ c, pickStep acc x = some c → c.createdAt ≤ o.createdAt := hacc
    have hx : x.createdAt ≤ o.createdAt := by
      cases acc with
      | none => exact hstep x rfl
      | some b =>
        by_cases hc : x.createdAt > b.createdAt
        · exact hstep x (by simp [pickStep, if_pos hc])
        · exact le_trans (not_lt.mp hc) (hstep b (by simp [pickStep, if_neg hc]))
    refine ⟨fun b hb => ?_, fun o' ho' => ?_⟩
    · subst hb
      by_cases hc : x.createdAt > b.createdAt
      · exact le_trans (le_of_lt hc) hx
      · exact hstep b (by simp [pickStep, if_neg hc])
    · rcases List.mem_cons.mp ho' with h1 | h1
      · rw [h1]; exact hx
      · exact hall o' h1

theorem pickLatestCreated_mem {l : List Overwrite} {o : Overwrite}
    (h : pickLatestCreated l = some o) : o ∈ l := by
  rcases foldl_pickStep_mem l none o h with h' | h'
  · exact absurd h' (by simp)
  · exact h'

theorem pickLatestCreated_max {l : List Overwrite} {o : Overwrite}
    (h : pickLatestCreated l = some o) :
    ∀ o' ∈ l, o'.createdAt ≤ o.createdAt :=
  (foldl_pickStep_max l none o h).2

/-! ## C1 -/

/-- C1: `GetActiveOverwrite` returns an overwrite `o` only if
`o.from ≤ T < o.to`, `o` is not deleted, and `o`'s inbound number is absent
or in the requested set; any returned overwrite has the greatest `createdAt`
among the overwrites satisfying the filter.  Moreover, in the concrete
scenario with O1 (10:00-12:00, user A, created first) and O2 (11:00-11:30,
phone +43100, created later) stored, resolving at 11:15 with
ignore-overwrites = false yields `is_overwrite = true`, primary transfer
target `+43100` and a single on-call entry valid until 11:30. -/
theorem getActiveOverwrite_returns_latest_active :
    (∀ (os : List Overwrite) (date : Int) (s : List String) (o : Overwrite),
      GetActiveOverwrite os date s = some o →
      o ∈ os ∧ o.fromTime ≤ date ∧ date < o.toTime ∧ o.deleted = false ∧
        (o.inboundNumber = none ∨ ∃ n, o.inboundNumber = some n ∧ n ∈ s) ∧
        (∀ o' ∈ os, isActiveOverwriteAt date s o' = true →
          o'.createdAt ≤ o.createdAt)) ∧
    ResolveOnCallTarget scenarioEnv 675 false "" =
      Except.ok
        { isOverwrite := true
          onCall := [⟨none, "+43100", 690⟩]
          primaryTransferTarget := "+43100" } := by
  constructor
  · intro os date s o h
    unfold GetActiveOverwrite at h
    have hmem := pickLatestCreated_mem h
    have hmax := pickLatestCreated_max h
    rw [List.mem_filter] at hmem
    obtain ⟨hin, hact⟩ := hmem
    have hact' := hact
    unfold isActiveOverwriteAt at hact'
    simp only [Bool.and_eq_true, decide_eq_true_eq, Bool.not_eq_true'] at hact'
    obtain ⟨⟨⟨hfrom, hto⟩, hnum⟩, hdel⟩ := hact'
    refine ⟨hin, hfrom, hto, hdel, ?_, ?_⟩
    · unfold matchesInboundNumbersFilter at hnum
      cases hn : o.inboundNumber with
      | none => exact Or.inl rfl
      | some n =>
        rw [hn] at hnum
        exact Or.inr ⟨n, rfl, List.mem_of_elem_eq_true hnum⟩
    · intro o' ho' hact''
      exact hmax o' (List.mem_filter.mpr ⟨ho', hact''⟩)
  · rfl

/-- Witness for C1: the general part instantiated at the scenario store,
time 11:15 and an empty requested set, where O2 is returned. -/
theorem getActiveOverwrite_returns_latest_active_witness :
    scenarioO2 ∈ [scenarioO1, scenarioO2] ∧
      scenarioO2.fromTime ≤ 675 ∧ (675 : Int) < scenarioO2.toTime ∧
      scenarioO2.deleted = false ∧
      (scenarioO2.inboundNumber = none ∨
        ∃ n, scenarioO2.inboundNumber = some n ∧ n ∈ ([] : List String)) ∧
      (∀ o' ∈ [scenarioO1, scenarioO2], isActiveOverwriteAt 675 [] o' = true →
        o'.createdAt ≤ scenarioO2.createdAt) :=
  getActiveOverwrite_returns_latest_active.1 [scenarioO1, scenarioO2] 675 [] scenarioO2
    (by rfl)

/-! ## C4 -/

/-- C4: whenever on-call resolution fails — whatever the cause — and a
failover transfer target is configured, `GetOnCall` answers successfully
with the failover value as primary transfer target and an empty on-call
list; without a configured failover target the failure is surfaced. -/
theorem getOnCall_failover_on_resolution_failure
    (env : ResolveEnv) (ft : String) (dt : Int) (ig : Bool) (ib : String)
    (e : OnCallError)
    (h : ResolveOnCallTarget env dt ig ib = Except.error e) :
    (ft ≠ "" → rpcGetOnCall env ft dt ig ib =
      Except.ok { isOverwrite := false, onCall := [], primaryTransferTarget := ft }) ∧
    (ft = "" → rpcGetOnCall env ft dt ig ib = Except.error e) := by
  have hr : rpcGetOnCall env ft dt ig ib = handleOnCallError ft e := by
    unfold rpcGetOnCall
    rw [h]
  rw [hr]
  unfold handleOnCallError
  constructor
  · intro hft
    rw [if_pos hft]
  · intro hft
    subst hft
    rw [if_neg (by simp)]

/-- Witness for C4: with `FAILOVER_TRANSFER_TARGET = "+43555"`, a failing
roster service and no active overwrite, `GetOnCall` succeeds with the
failover target and an empty on-call list. -/
theorem getOnCall_failover_on_resolution_failure_witness :
    rpcGetOnCall failoverEnv "+43555" 0 false "" =
      Except.ok
        { isOverwrite := false, onCall := [], primaryTransferTarget := "+43555" } :=
  (getOnCall_failover_on_resolution_failure failoverEnv "+43555" 0 false ""
    (OnCallError.roster "roster unavailable") (by rfl)).1 (by decide)

/-! ## C10 -/

/-- C10: for an overwrite whose deleted flag is set, the store-level
get-by-id still returns the document, but the RPC `GetOverwrite` with the
`overwrite_id` selector answers NOT_FOUND. -/
theorem rpcGetOverwriteById_deleted_not_found
    (os : List Overwrite) (id : Nat) (o : Overwrite)
    (h : dbGetOverwrite os id = some o) (hd : o.deleted = true) :
    dbGetOverwrite os id = some o ∧
      rpcGetOverwriteById os id = Except.error RpcError.notFound := by
  refine ⟨h, ?_⟩
  have hr : rpcGetOverwriteById os id =
      (if o.deleted then Except.error RpcError.notFound else Except.ok [o]) := by
    unfold rpcGetOverwriteById
    rw [h]
  rw [hr, if_pos hd]

/-- Witness for C10: a concrete soft-deleted overwrite is returned by the
store lookup and masked to NOT_FOUND by the RPC. -/
theorem rpcGetOverwriteById_deleted_not_found_witness :
    dbGetOverwrite [⟨7, 0, 10, "", "+431", "", "A", 5, true, none⟩] 7 =
        some ⟨7, 0, 10, "", "+431", "", "A", 5, true, none⟩ ∧
      rpcGetOverwriteById [⟨7, 0, 10, "", "+431", "", "A", 5, true, none⟩] 7 =
        Except.error RpcError.notFound :=
  rpcGetOverwriteById_deleted_not_found
    [⟨7, 0, 10, "", "+431", "", "A", 5, true, none⟩] 7
    ⟨7, 0, 10, "", "+431", "", "A", 5, true, none⟩ (by rfl) (by rfl)

/-! ## C5 -/

/-- C5: a parsed CDR record is classified Inbound iff its from-type is not
`extension`, and Answered iff (inbound) the final type is not `queue`
respectively (outbound) `time-answered` is non-zero; the synthesized
call-log record maps inbound+answered to type "Inbound", inbound+missed to
"Missed" with direction "Inbound", inbound-number = dial-number and
agent = final-number with a leading "Ext." stripped, and outbound records
to "Outbound"/"NotAnswered" with caller = dial-number and agent =
from-number with "Ext." stripped. -/
theorem cdr_classification_and_synthesis
    (fmtDate : Int → String) (resolveAgent : String → String) (r : CdrRecord) :
    (r.Inbound = true ↔ r.fromType ≠ TypeExtension) ∧
    (r.Inbound = true → (r.Answered = true ↔ r.finalType ≠ TypeQueue)) ∧
    (r.Inbound = false → (r.Answered = true ↔ r.timeAnswered ≠ 0)) ∧
    (r.Inbound = true → r.Answered = true →
      (callLogFromRecord fmtDate resolveAgent r).callType = "Inbound" ∧
      (callLogFromRecord fmtDate resolveAgent r).direction = "Inbound" ∧
      (callLogFromRecord fmtDate resolveAgent r).inboundNumber = r.dialNumber ∧
      (callLogFromRecord fmtDate resolveAgent r).agent = trimExtDot r.finalNumber) ∧
    (r.Inbound = true → r.Answered = false →
      (callLogFromRecord fmtDate resolveAgent r).callType = "Missed" ∧
      (callLogFromRecord fmtDate resolveAgent r).direction = "Inbound" ∧
      (callLogFromRecord fmtDate resolveAgent r).inboundNumber = r.dialNumber ∧
      (callLogFromRecord fmtDate resolveAgent r).agent = trimExtDot r.finalNumber) ∧
    (r.Inbound = false →
      (callLogFromRecord fmtDate resolveAgent r).direction = "Outbound" ∧
      (callLogFromRecord fmtDate resolveAgent r).caller = r.dialNumber ∧
      (callLogFromRecord fmtDate resolveAgent r).agent = trimExtDot r.fromNumber ∧
      (callLogFromRecord fmtDate resolveAgent r).callType =
        (if r.Answered then "Outbound" else "NotAnswered")) := by
  refine ⟨?_, ?_, ?_, ?_, ?_, ?_⟩
  · simp [CdrRecord.Inbound]
  · intro h
    simp [CdrRecord.Answered, h]
  · intro h
    simp [CdrRecord.Answered, h]
  · intro h ha
    simp [callLogFromRecord, h, ha]
  · intro h ha
    simp [callLogFromRecord, h, ha]
  · intro h
    by_cases ha : r.Answered = true
    · simp [callLogFromRecord, h, ha]
    · simp [callLogFromRecord, h, Bool.eq_false_iff.mpr ha,
        Bool.not_eq_true r.Answered ▸ ha]

/-- Witness for C5: the §8.4 row (from-type `external_line`, final-type
`queue`, empty `time-answered`) yields a "Missed"/"Inbound" record with
inbound number `+4322` and agent `12` (the `Ext.` stripped). -/
theorem cdr_classification_and_synthesis_witness :
    (callLogFromRecord exampleFmtDate (fun _ => "") missedCdr).callType = "Missed" ∧
    (callLogFromRecord exampleFmtDate (fun _ => "") missedCdr).direction = "Inbound" ∧
    (callLogFromRecord exampleFmtDate (fun _ => "") missedCdr).inboundNumber =
      missedCdr.dialNumber ∧
    (callLogFromRecord exampleFmtDate (fun _ => "") missedCdr).agent =
      trimExtDot missedCdr.finalNumber :=
  (cdr_classification_and_synthesis exampleFmtDate (fun _ => "") missedCdr).2.2.2.2.1
    (by decide) (by decide)

/-! ## C6 -/

/-- The exited state is absorbing for the find-customer worker. -/
theorem findCustomerExec_exited (cs : List SelectChoice) (n : Nat) :
    findCustomerExec (WorkerPhase.exited n) cs = WorkerPhase.exited n := by
  induction cs with
  | nil => rfl
  | cons c cs ih => simpa [findCustomerExec, findCustomerStep] using ih

/-- C6 (refuting theorem): the reconciliation worker of
find_customers.go:14-63 executes at most one pass under every schedule of
`select` outcomes — after the single `select` the goroutine body ends, so
no second pass ever starts; with at least two scheduled events it has
definitely exited after exactly one pass.  The part_019 revision, whose
`for` loop would repeat, likewise exits after the first pass when the
`select` takes the per-pass context's `Done` branch — which is always
ready there because `cancel()` already ran. -/
theorem findCustomerWorker_single_pass :
    (∀ cs : List SelectChoice,
      (findCustomerExec (WorkerPhase.pass 0) cs).passes ≤ 1) ∧
    (∀ (c1 c2 : SelectChoice) (cs : List SelectChoice),
      findCustomerExec (WorkerPhase.pass 0) (c1 :: c2 :: cs) = WorkerPhase.exited 1) ∧
    findCustomerExec19 (WorkerPhase.pass 0)
        [SelectChoice.ctxDone, SelectChoice.ctxDone] =
      WorkerPhase.exited 1 := by
  refine ⟨?_, ?_, rfl⟩
  · intro cs
    match cs with
    | [] => exact Nat.zero_le 1
    | [c] => exact Nat.le_refl 1
    | c1 :: c2 :: cs =>
      show (findCustomerExec (findCustomerStep (WorkerPhase.selectWait 1) c2) cs).passes ≤ 1
      rw [show findCustomerStep (WorkerPhase.selectWait 1) c2 = WorkerPhase.exited 1 from rfl,
        findCustomerExec_exited]
      exact Nat.le_refl 1
  · intro c1 c2 cs
    show findCustomerExec (findCustomerStep (WorkerPhase.selectWait 1) c2) cs = WorkerPhase.exited 1
    rw [show findCustomerStep (WorkerPhase.selectWait 1) c2 = WorkerPhase.exited 1 from rfl,
      findCustomerExec_exited]

/-! ## C7 -/

/-- C7: a time-of-day slot whose `send_time_today` lies before the worker's
start time or after the current wall-clock time is skipped before anything
happens: no requests are dispatched, nothing is journaled and the
`lastSentMap` entry is untouched. -/
theorem notification_slot_skipped_outside_window
    (start now t : Int) (ls : Option Int) (res : List (Except Unit (List Bool)))
    (h : t < start ∨ t > now) :
    processSlot start now t ls res =
      { sent := false, journaled := false, newLastSent := ls } := by
  rcases h with h | h
  · simp [processSlot, h]
  · simp [processSlot, h]

/-- Witness for C7: a slot at 50 with worker start 100 and now 200 is
skipped untouched. -/
theorem notification_slot_skipped_outside_window_witness :
    processSlot 100 200 50 none [] =
      { sent := false, journaled := false, newLastSent := none } :=
  notification_slot_skipped_outside_window 100 200 50 none []
    (Or.inl (by decide))

/-! ## C3 -/

/-- C3 (counterexample): a slot that fires and whose only dispatch fails is
not journaled — but `lastSentMap[key]` is still set to `send_time_today`,
contradicting the claim that `last_sent` is updated only in the success
case. -/
theorem notification_slot_lastSent_on_failure :
    slotSuccess [Except.error ()] = false ∧
    (processSlot 0 10 5 none [Except.error ()]).sent = true ∧
    (processSlot 0 10 5 none [Except.error ()]).journaled = false ∧
    (processSlot 0 10 5 none [Except.error ()]).newLastSent = some 5 := by
  decide

/-- C3 (amended): for an eligible slot (inside the time window, not yet
sent for `send_time_today`), the journal entries are written iff every
dispatched request returned without error and every delivery reported
`error_kind UNSPECIFIED`; `lastSentMap[key]` is set to `send_time_today`
in both the success and the failure case, and on failure nothing is
journaled, so the candidates stay un-journaled and remain candidates at
the next tick. -/
theorem notification_slot_journal_iff_success
    (start now t : Int) (ls : Option Int) (res : List (Except Unit (List Bool)))
    (hwin : ¬(t < start ∨ t > now))
    (hdue : ls = none ∨ ∃ v, ls = some v ∧ v < t) :
    ((processSlot start now t ls res).journaled = true ↔ slotSuccess res = true) ∧
    (processSlot start now t ls res).sent = true ∧
    (processSlot start now t ls res).newLastSent = some t ∧
    (slotSuccess res = false → (processSlot start now t ls res).journaled = false) := by
  have h1 : ¬(t < start) := fun hc => hwin (Or.inl hc)
  have h2 : ¬(t > now) := fun hc => hwin (Or.inr hc)
  rcases hdue with h | ⟨v, hv, hlt⟩
  · subst h
    simp [processSlot, h1, h2]
  · subst hv
    simp [processSlot, h1, h2, hlt]

/-- Witness for C3 (amended theorem): an eligible slot at 5 (window 0-10,
last sent at 3) with one fully successful dispatch is journaled, and its
`lastSentMap` entry becomes 5. -/
theorem notification_slot_journal_iff_success_witness :
    ((processSlot 0 10 5 (some 3) [Except.ok [true]]).journaled = true ↔
      slotSuccess [Except.ok [true]] = true) ∧
    (processSlot 0 10 5 (some 3) [Except.ok [true]]).sent = true ∧
    (processSlot 0 10 5 (some 3) [Except.ok [true]]).newLastSent = some 5 ∧
    (slotSuccess [Except.ok [true]] = false →
      (processSlot 0 10 5 (some 3) [Except.ok [true]]).journaled = false) :=
  notification_slot_journal_iff_success 0 10 5 (some 3) [Except.ok [true]]
    (by decide) (Or.inr ⟨3, rfl, by decide⟩)

/-! ## C9 -/

/-- C9: `MarkVoiceMails` with `seen = true` is idempotent — a repeated
invocation (even with a later `now`) changes nothing, and a record that is
already seen is never touched: only currently unseen records receive a new
`seen_time`. -/
theorem markVoiceMails_seen_idempotent
    (mb : Option Nat) (ids : List Nat) (now1 now2 : Int)
    (records : List VoiceMailRec) :
    MarkVoiceMails true mb ids now2 (MarkVoiceMails true mb ids now1 records) =
      MarkVoiceMails true mb ids now1 records ∧
    (∀ v : VoiceMailRec, v.seenTime.isSome = true →
      MarkVoiceMails true mb ids now2 [v] = [v]) := by
  have hpt : ∀ v : VoiceMailRec,
      (if markFilter true mb ids ((if markFilter true mb ids v then
          { v with seenTime := some now1 } else v)) then
        { (if markFilter true mb ids v then { v with seenTime := some now1 } else v)
          with seenTime := some now2 }
      else (if markFilter true mb ids v then { v with seenTime := some now1 } else v)) =
        (if markFilter true mb ids v then { v with seenTime := some now1 } else v) := by
    intro v
    by_cases h : markFilter true mb ids v
    · rw [if_pos h]
      have hf : markFilter true mb ids { v with seenTime := some now1 } = false := by
        simp [markFilter]
      rw [if_neg (by rw [hf]; exact Bool.false_ne_true)]
    · rw [if_neg h, if_neg h]
  constructor
  · unfold MarkVoiceMails
    rw [List.map_map]
    refine List.map_congr_left (fun v _ => ?_)
    simpa [Function.comp] using hpt v
  · intro v h
    have hf : markFilter true mb ids v = false := by
      simp [markFilter, h]
    simp [MarkVoiceMails, hf]

/-- Witness for C9: a voicemail already seen at 5 is untouched by a
repeated seen-marking at 7. -/
theorem markVoiceMails_seen_idempotent_witness :
    MarkVoiceMails true none [] 7 [⟨1, 1, some 5⟩] = [⟨1, 1, some 5⟩] :=
  (markVoiceMails_seen_idempotent none [] 0 7 []).2 ⟨1, 1, some 5⟩ (by decide)

/-! ## C8 -/

/-- C8: every record persisted through the call-log writes stores, for a
caller other than the literal `"anonymous"`, the INTERNATIONAL-format
output of parsing the input caller with the configured country; the input
literal `"Anonymous"` is stored as the literal `"anonymous"`, and the date
string is derived from the record's timestamp. -/
theorem callLog_caller_normalization
    (pp : String → Option String) (fd : Int → String) :
    (∀ r w, perpareRecord pp fd r = some w →
      w.dateStr = fd r.date ∧
      (r.caller = "Anonymous" → w.caller = "anonymous") ∧
      (w.caller ≠ "anonymous" → pp r.caller = some w.caller)) ∧
    (∀ store r st' w, CreateUnidentified pp fd store r = some (st', w) →
      st' = store ++ [w] ∧ perpareRecord pp fd r = some w) ∧
    (∀ store r st' w, RecordCustomerCall pp fd store r = some (st', w) →
      ∃ r', perpareRecord pp fd r = some r' ∧
        w.caller = r'.caller ∧ w.dateStr = r'.dateStr) := by
  refine ⟨?_, ?_, ?_⟩
  · intro r w h
    unfold perpareRecord at h
    by_cases ha : r.caller = "Anonymous"
    · rw [if_pos ha, Option.some.injEq] at h
      subst h
      exact ⟨rfl, fun _ => rfl, fun hc => absurd rfl hc⟩
    · rw [if_neg ha] at h
      cases hp : pp r.caller with
      | none => rw [hp] at h; cases h
      | some f =>
        rw [hp, Option.some.injEq] at h
        subst h
        exact ⟨rfl, fun hc => absurd hc ha, fun _ => rfl⟩
  · intro store r st' w h
    unfold CreateUnidentified at h
    cases hp : perpareRecord pp fd r with
    | none => rw [hp] at h; cases h
    | some r' =>
      rw [hp, Option.map_some', Option.some.injEq] at h
      have h1 : store ++ [r'] = st' := congrArg Prod.fst h
      have h2 : r' = w := congrArg Prod.snd h
      subst h2
      exact ⟨h1.symm, rfl⟩
  · intro store r st' w h
    unfold RecordCustomerCall at h
    cases hp : perpareRecord pp fd r with
    | none => rw [hp] at h; cases h
    | some r' =>
      rw [hp, Option.map_some', Option.some.injEq] at h
      have hw : w = (recordCustomerCallPrepared store r').2 := by rw [h]
      refine ⟨r', rfl, ?_, ?_⟩ <;>
      · rw [hw]
        unfold recordCustomerCallPrepared
        cases findMatchingUnidentified store r' with
        | none => rfl
        | some ex => rfl

/-- Witness for C8: the raw §8.2 record (caller `"0664 123"`) prepared with
the example normalizer stores caller `"+43 664 123"` and the derived date
string. -/
theorem callLog_caller_normalization_witness :
    taggedRecord.dateStr = exampleFmtDate rawTaggedRecord.date ∧
    (rawTaggedRecord.caller = "Anonymous" → taggedRecord.caller = "anonymous") ∧
    (taggedRecord.caller ≠ "anonymous" →
      examplePhoneParse rawTaggedRecord.caller = some taggedRecord.caller) :=
  (callLog_caller_normalization examplePhoneParse exampleFmtDate).1
    rawTaggedRecord taggedRecord (by decide)

/-! ## C2 -/

/-- Membership is preserved by ordered insertion. -/
theorem mem_insertDescByDate {c x : CallLog} :
    ∀ {l : List CallLog}, x ∈ insertDescByDate c l ↔ x = c ∨ x ∈ l := by
  intro l
  induction l with
  | nil => simp [insertDescByDate]
  | cons a l ih =>
    unfold insertDescByDate
    by_cases h : c.date ≤ a.date
    · rw [if_pos h]
      simp only [List.mem_cons, ih]
      try tauto
    · rw [if_neg h]
      simp only [List.mem_cons]
      try tauto

/-- The descending sort is a permutation as far as membership goes. -/
theorem mem_sortDescByDate {x : CallLog} :
    ∀ {l : List CallLog}, x ∈ sortDescByDate l ↔ x ∈ l := by
  intro l
  induction l with
  | nil => simp [sortDescByDate]
  | cons a l ih =>
    show x ∈ insertDescByDate a (sortDescByDate l) ↔ _
    rw [mem_insertDescByDate]
    simp only [List.mem_cons, ih]

/-- The order maintained by `sortDescByDate`: earlier elements carry later
(or equal) timestamps. -/
def descByDate (a b : CallLog) : Prop := b.date ≤ a.date

/-- Ordered insertion preserves the descending-by-date pairwise order. -/
theorem pairwise_insertDescByDate {c : CallLog} :
    ∀ {l : List CallLog}, l.Pairwise descByDate →
      (insertDescByDate c l).Pairwise descByDate := by
  intro l
  induction l with
  | nil => intro _; simp [insertDescByDate, descByDate]
  | cons a l ih =>
    intro h
    rw [List.pairwise_cons] at h
    obtain ⟨ha, hl⟩ := h
    unfold insertDescByDate
    by_cases hc : c.date ≤ a.date
    · rw [if_pos hc, List.pairwise_cons]
      refine ⟨fun y hy => ?_, ih hl⟩
      rw [mem_insertDescByDate] at hy
      rcases hy with rfl | hy
      · exact hc
      · exact ha y hy
    · rw [if_neg hc, List.pairwise_cons]
      refine ⟨fun y hy => ?_, List.pairwise_cons.mpr ⟨ha, hl⟩⟩
      rcases List.mem_cons.mp hy with rfl | hy
      · exact le_of_lt (lt_of_not_le hc)
      · exact le_trans (ha y hy) (le_of_lt (lt_of_not_le hc))

/-- The candidate list is sorted descending by date. -/
theorem pairwise_sortDescByDate (l : List CallLog) :
    (sortDescByDate l).Pairwise descByDate := by
  induction l with
  | nil => simp [sortDescByDate]
  | cons a l ih => exact pairwise_insertDescByDate ih

/-- In a pairwise-ordered list, anything satisfying the search predicate is
either the found element or related to it. -/
theorem find?_pairwise_first {α : Type} {R : α → α → Prop} {p : α → Bool} :
    ∀ {l : List α} {x : α}, l.Pairwise R → l.find? p = some x →
      ∀ y ∈ l, p y = true → y = x ∨ R x y := by
  intro l
  induction l with
  | nil => intro x _ h; cases h
  | cons a l ih =>
    intro x hp h y hy hpy
    rw [List.pairwise_cons] at hp
    by_cases hpa : p a = true
    · rw [List.find?_cons_of_pos _ hpa, Option.some.injEq] at h
      subst h
      rcases List.mem_cons.mp hy with rfl | hy
      · exact Or.inl rfl
      · exact Or.inr (hp.1 y hy)
    · rw [List.find?_cons_of_neg _ (by simpa using hpa)] at h
      rcases List.mem_cons.mp hy with rfl | hy
      · exact absurd hpy hpa
      · exact ih hp.2 h y hy hpy

/-- An accepted candidate is a stored unidentified record of the same date
string and caller inside the ±2-minute window, and it carries the latest
timestamp among all such records. -/
theorem findMatchingUnidentified_some_spec {store : List CallLog} {r ex : CallLog}
    (h : findMatchingUnidentified store r = some ex) :
    ex ∈ store ∧ unidentifiedCandidate r ex = true ∧ withinTwoMinutes r ex = true ∧
      ∀ c ∈ store, unidentifiedCandidate r c = true → withinTwoMinutes r c = true →
        c.date ≤ ex.date := by
  unfold findMatchingUnidentified at h
  have hmem : ex ∈ sortDescByDate (store.filter (unidentifiedCandidate r)) :=
    List.mem_of_find?_eq_some h
  have hp : withinTwoMinutes r ex = true := List.find?_some h
  rw [mem_sortDescByDate, List.mem_filter] at hmem
  refine ⟨hmem.1, hmem.2, hp, fun c hc h1 h2 => ?_⟩
  have hcs : c ∈ sortDescByDate (store.filter (unidentifiedCandidate r)) := by
    rw [mem_sortDescByDate, List.mem_filter]
    exact ⟨hc, h1⟩
  rcases find?_pairwise_first (pairwise_sortDescByDate _) h c hcs h2 with rfl | hR
  · exact le_refl _
  · exact hR

/-- When the scan accepts nothing, no stored record qualifies. -/
theorem findMatchingUnidentified_none_spec {store : List CallLog} {r : CallLog}
    (h : findMatchingUnidentified store r = none) :
    ∀ c ∈ store, ¬(unidentifiedCandidate r c = true ∧ withinTwoMinutes r c = true) := by
  unfold findMatchingUnidentified at h
  rw [List.find?_eq_none] at h
  intro c hc hcontra
  exact h c (by rw [mem_sortDescByDate, List.mem_filter]; exact ⟨hc, hcontra.1⟩) hcontra.2

/-- C2: the customer-tagged write scans stored records with the new
record's (normalized) caller and date string and no duration, in descending
timestamp order, accepting the first one within ±2 minutes; on acceptance
the new record takes over the candidate's id, transfer target, error flag,
transfer source and call id (and inbound number, customer id, from-type and
to-type only when empty on the new record) and replaces the candidate
document in place; otherwise it is inserted as a new record.  Consequently
a record created by this write either reuses the id of a matching prior
unidentified record, or no such record existed at commit time. -/
theorem recordCustomerCall_merges_or_inserts (store : List CallLog) (r : CallLog) :
    (∀ ex, findMatchingUnidentified store r = some ex →
      ex ∈ store ∧ unidentifiedCandidate r ex = true ∧ withinTwoMinutes r ex = true ∧
      (∀ c ∈ store, unidentifiedCandidate r c = true → withinTwoMinutes r c = true →
        c.date ≤ ex.date) ∧
      recordCustomerCallPrepared store r =
        (store.map (fun c => if c.id = ex.id then mergeCarryOver r ex else c),
          mergeCarryOver r ex) ∧
      (mergeCarryOver r ex).id = ex.id ∧
      (mergeCarryOver r ex).transferTarget = ex.transferTarget ∧
      (mergeCarryOver r ex).error = ex.error ∧
      (mergeCarryOver r ex).transferFrom = ex.transferFrom ∧
      (mergeCarryOver r ex).callID = ex.callID ∧
      (mergeCarryOver r ex).inboundNumber =
        (if r.inboundNumber = "" then ex.inboundNumber else r.inboundNumber) ∧
      (mergeCarryOver r ex).customerID =
        (if r.customerID = "" then ex.customerID else r.customerID) ∧
      (mergeCarryOver r ex).fromType =
        (if r.fromType = "" then ex.fromType else r.fromType) ∧
      (mergeCarryOver r ex).toType =
        (if r.toType = "" then ex.toType else r.toType)) ∧
    (findMatchingUnidentified store r = none →
      recordCustomerCallPrepared store r = (store ++ [r], r) ∧
      ∀ c ∈ store, ¬(unidentifiedCandidate r c = true ∧ withinTwoMinutes r c = true)) ∧
    ((∃ ex ∈ store, unidentifiedCandidate r ex = true ∧ withinTwoMinutes r ex = true ∧
        (recordCustomerCallPrepared store r).2.id = ex.id) ∨
      ¬∃ ex ∈ store, unidentifiedCandidate r ex = true ∧ withinTwoMinutes r ex = true) := by
  refine ⟨?_, ?_, ?_⟩
  · intro ex h
    obtain ⟨hmem, hcand, hwin, hmax⟩ := findMatchingUnidentified_some_spec h
    refine ⟨hmem, hcand, hwin, hmax, ?_, rfl, rfl, rfl, rfl, rfl, rfl, rfl, rfl, rfl⟩
    unfold recordCustomerCallPrepared
    rw [h]
  · intro h
    refine ⟨?_, findMatchingUnidentified_none_spec h⟩
    unfold recordCustomerCallPrepared
    rw [h]
  · cases hm : findMatchingUnidentified store r with
    | some ex =>
      obtain ⟨hmem, hcand, hwin, _⟩ := findMatchingUnidentified_some_spec hm
      refine Or.inl ⟨ex, hmem, hcand, hwin, ?_⟩
      unfold recordCustomerCallPrepared
      rw [hm]
      rfl
    | none =>
      refine Or.inr (fun ⟨ex, hmem, hcand, hwin⟩ =>
        findMatchingUnidentified_none_spec hm ex hmem ⟨hcand, hwin⟩)

/-- Witness for C2: the §8.2 merge — the customer-tagged record at 12:01
absorbs the unidentified record recorded at 12:00 and keeps its id. -/
theorem recordCustomerCall_merges_or_inserts_witness :
    priorUnidentified ∈ [priorUnidentified] ∧
    unidentifiedCandidate taggedRecord priorUnidentified = true ∧
    withinTwoMinutes taggedRecord priorUnidentified = true ∧
    (recordCustomerCallPrepared [priorUnidentified] taggedRecord).2.id =
      priorUnidentified.id := by
  obtain ⟨h1, h2, h3, _, h5, h6, _⟩ :=
    (recordCustomerCall_merges_or_inserts [priorUnidentified] taggedRecord).1
      priorUnidentified (by rfl)
  exact ⟨h1, h2, h3, by rw [h5]; exact h6⟩

end PbxSupport
